import Mathlib

/-!
Shallow embedding of the request-context layer of the cheetah HTTP framework
(the `RequestContext` class) and proofs about the claims of its specification.

JavaScript runtime pieces the source relies on (plain objects used as string
maps, `String.prototype.split`, `JSON.parse`, `decodeURIComponent`,
`Headers.get`, promise deadlines) are modelled explicitly below; the
`RequestContext` accessors themselves are translated statement by statement
from the source file.
-/

set_option maxRecDepth 16384

namespace Cheetah

/-! ## JavaScript plain objects used as string-keyed maps

A JS object literal used as a record keeps string keys in insertion order;
assigning to an existing key overwrites the value in place, assigning a fresh
key appends, and `delete` removes the entry.  (The model assumes keys are not
integer-like, which holds for every key the claims exercise.) -/

/-- A JavaScript object used as a string-keyed map, in insertion order. -/
abbrev JsObj (α : Type) : Type := List (String × α)

/-- Property read: `o[k]`, `none` when the property is absent. -/
def jsGet {α : Type} (o : JsObj α) (k : String) : Option α :=
  (List.find? (fun p => p.1 == k) o).map (fun p => p.2)

/-- Property write: `o[k] = v`; overwrites in place, else appends. -/
def jsSet {α : Type} (o : JsObj α) (k : String) (v : α) : JsObj α :=
  if List.any o (fun p => p.1 == k) then
    List.map (fun p => if p.1 == k then (k, v) else p) o
  else
    o ++ [(k, v)]

/-- Property removal: `delete o[k]`. -/
def jsDelete {α : Type} (o : JsObj α) (k : String) : JsObj α :=
  List.filter (fun p => !(p.1 == k)) o

/-- Number of entries of the object. -/
def jsSize {α : Type} (o : JsObj α) : Nat :=
  List.length o

/-- JavaScript truthiness of `o[k]` when the values are strings:
`!o[k]` holds exactly when the property is absent or the empty string. -/
def jsFalsyStr (v : Option String) : Bool :=
  match v with
  | none => true
  | some s => s = ""

/-! ## Character-level models of JavaScript string operations -/

/-- ASCII lower-casing, modelling `String.prototype.toLowerCase` on the
ASCII header names the claims exercise. -/
def charLower (c : Char) : Char :=
  if 'A' ≤ c ∧ c ≤ 'Z' then Char.ofNat (c.toNat + 32) else c

/-- ASCII lower-casing of a string. -/
def jsToLower (s : String) : String :=
  String.mk (List.map charLower s.toList)

/-- Characters matched by the regex class `\s` (ASCII part). -/
def isJsSpace (c : Char) : Bool :=
  c = ' ' ∨ c = '\t' ∨ c = '\n' ∨ c = '\r' ∨ c = '\x0b' ∨ c = '\x0c'

/-- Worker for `jsSplitChar`: `acc` holds the current piece reversed. -/
def jsSplitCharAux (sep : Char) : List Char → List Char → List String
  | [], acc => [String.mk (List.reverse acc)]
  | c :: rest, acc =>
    if c = sep then String.mk (List.reverse acc) :: jsSplitCharAux sep rest []
    else jsSplitCharAux sep rest (c :: acc)

/-- `s.split(sep)` for a one-character separator: `"" ↦ [""]`,
`"a=" ↦ ["a", ""]`, `"a=b=c" ↦ ["a", "b", "c"]`. -/
def jsSplitChar (sep : Char) (s : String) : List String :=
  jsSplitCharAux sep s.toList []

/-- Worker for `splitSemiWs`: when `skipping` is set we are consuming the
`\s*` run that follows a `;`. -/
def splitSemiWsAux : List Char → List Char → Bool → List String
  | [], acc, _ => [String.mk (List.reverse acc)]
  | c :: rest, acc, skipping =>
    if skipping ∧ isJsSpace c then splitSemiWsAux rest acc true
    else if c = ';' then
      String.mk (List.reverse acc) :: splitSemiWsAux rest [] true
    else splitSemiWsAux rest (c :: acc) false

/-- `s.split(/;\s*/)`: split on a `;` together with the whitespace run that
immediately follows it. -/
def splitSemiWs (s : String) : List String :=
  splitSemiWsAux s.toList [] false

/-- `pair.split(/=(.+)/)` reduced to the destructured `[k, v]` the source
uses: the regex matches at the first `=` that has at least one character
after it, the key is the part before that `=` and the captured value is
everything after it; when the regex does not match (no `=`, or only a
trailing `=`), the key is the whole string and the value is `undefined`. -/
def splitEqCapture : List Char → Option (List Char × List Char)
  | [] => none
  | '=' :: c :: rest => some ([], c :: rest)
  | c :: rest =>
    match splitEqCapture rest with
    | some (pre, v) => some (c :: pre, v)
    | none => none

/-- Key/value destructuring of one cookie pair, see `splitEqCapture`. -/
def cookiePairKV (pair : String) : String × Option String :=
  match splitEqCapture pair.toList with
  | some (k, v) => (String.mk k, some (String.mk v))
  | none => (pair, none)

/-! ## `decodeURIComponent` -/

/-- Numeric value of a hexadecimal digit. -/
def hexVal (c : Char) : Option Nat :=
  if '0' ≤ c ∧ c ≤ '9' then some (c.toNat - 48)
  else if 'a' ≤ c ∧ c ≤ 'f' then some (c.toNat - 87)
  else if 'A' ≤ c ∧ c ≤ 'F' then some (c.toNat - 55)
  else none

/-- UTF-8 encoding of one character. -/
def utf8EncodeChar (c : Char) : List UInt8 :=
  let n := c.toNat
  if n < 0x80 then [UInt8.ofNat n]
  else if n < 0x800 then
    [UInt8.ofNat (0xc0 + n / 64), UInt8.ofNat (0x80 + n % 64)]
  else if n < 0x10000 then
    [UInt8.ofNat (0xe0 + n / 4096), UInt8.ofNat (0x80 + n / 64 % 64),
      UInt8.ofNat (0x80 + n % 64)]
  else
    [UInt8.ofNat (0xf0 + n / 262144), UInt8.ofNat (0x80 + n / 4096 % 64),
      UInt8.ofNat (0x80 + n / 64 % 64), UInt8.ofNat (0x80 + n % 64)]

/-- Percent-decoding to a byte sequence: `%XY` contributes the byte `0xXY`,
any other character contributes its UTF-8 bytes; a `%` not followed by two
hexadecimal digits is the `URIError` case. -/
def pctDecodeBytes : List Char → Option (List UInt8)
  | [] => some []
  | '%' :: a :: b :: rest =>
    match hexVal a, hexVal b, pctDecodeBytes rest with
    | some ha, some hb, some tail => some (UInt8.ofNat (16 * ha + hb) :: tail)
    | _, _, _ => none
  | '%' :: _ => none
  | c :: rest =>
    match pctDecodeBytes rest with
    | some tail => some (utf8EncodeChar c ++ tail)
    | none => none

/-- UTF-8 decoding of a byte sequence; `none` on malformed input (overlong
forms, surrogates and out-of-range code points are rejected). -/
def utf8Decode : List UInt8 → Option (List Char)
  | [] => some []
  | b :: rest =>
    let n := b.toNat
    if n < 0x80 then
      match utf8Decode rest with
      | some cs => some (Char.ofNat n :: cs)
      | none => none
    else if 0xc2 ≤ n ∧ n ≤ 0xdf then
      match rest with
      | b2 :: rest2 =>
        let n2 := b2.toNat
        if 0x80 ≤ n2 ∧ n2 ≤ 0xbf then
          match utf8Decode rest2 with
          | some cs => some (Char.ofNat ((n - 0xc0) * 64 + (n2 - 0x80)) :: cs)
          | none => none
        else none
      | _ => none
    else if 0xe0 ≤ n ∧ n ≤ 0xef then
      match rest with
      | b2 :: b3 :: rest2 =>
        let n2 := b2.toNat
        let n3 := b3.toNat
        let lo2 := if n = 0xe0 then 0xa0 else 0x80
        let hi2 := if n = 0xed then 0x9f else 0xbf
        if lo2 ≤ n2 ∧ n2 ≤ hi2 ∧ 0x80 ≤ n3 ∧ n3 ≤ 0xbf then
          match utf8Decode rest2 with
          | some cs =>
            some (Char.ofNat (((n - 0xe0) * 64 + (n2 - 0x80)) * 64 + (n3 - 0x80)) :: cs)
          | none => none
        else none
      | _ => none
    else if 0xf0 ≤ n ∧ n ≤ 0xf4 then
      match rest with
      | b2 :: b3 :: b4 :: rest2 =>
        let n2 := b2.toNat
        let n3 := b3.toNat
        let n4 := b4.toNat
        let lo2 := if n = 0xf0 then 0x90 else 0x80
        let hi2 := if n = 0xf4 then 0x8f else 0xbf
        if lo2 ≤ n2 ∧ n2 ≤ hi2 ∧ 0x80 ≤ n3 ∧ n3 ≤ 0xbf ∧ 0x80 ≤ n4 ∧ n4 ≤ 0xbf then
          match utf8Decode rest2 with
          | some cs =>
            some (Char.ofNat
              ((((n - 0xf0) * 64 + (n2 - 0x80)) * 64 + (n3 - 0x80)) * 64 + (n4 - 0x80)) :: cs)
          | none => none
        else none
      | _ => none
    else none

/-- `decodeURIComponent`: percent-decode and re-interpret the bytes as
UTF-8; `none` models a thrown `URIError` (malformed escape or invalid
UTF-8). -/
def decodeURIComponent (s : String) : Option String :=
  match pctDecodeBytes s.toList with
  | some bs =>
    match utf8Decode bs with
    | some cs => some (String.mk cs)
    | none => none
  | none => none

/-! ## JSON values and `JSON.parse` -/

/-- JSON values as produced by `JSON.parse`.  A number literal is kept as a
mantissa and a power-of-ten exponent. -/
inductive JsVal where
  | null : JsVal
  | bool (b : Bool) : JsVal
  | num (mantissa : Int) (exp10 : Int) : JsVal
  | str (s : String) : JsVal
  | arr (elems : List JsVal) : JsVal
  | obj (fields : List (String × JsVal)) : JsVal

/-- JSON whitespace. -/
def isJsonWs (c : Char) : Bool :=
  c = ' ' ∨ c = '\t' ∨ c = '\n' ∨ c = '\r'

/-- Drop leading JSON whitespace. -/
def skipWs (cs : List Char) : List Char :=
  List.dropWhile isJsonWs cs

/-- Fold a digit run into a natural number. -/
def digitsToNat (ds : List Char) : Nat :=
  List.foldl (fun acc c => 10 * acc + (c.toNat - 48)) 0 ds

/-- Split a leading digit run off a character list. -/
def takeDigits (cs : List Char) : List Char × List Char :=
  (List.takeWhile Char.isDigit cs, List.dropWhile Char.isDigit cs)

/-- Parse the integer part of a JSON number (`0` or a nonzero-led digit
run); returns its value, digit count and the rest. -/
def parseIntPart : List Char → Option (Nat × List Char)
  | '0' :: rest =>
    match rest with
    | c :: _ => if c.isDigit then none else some (0, rest)
    | [] => some (0, [])
  | c :: rest =>
    if c.isDigit ∧ ¬ c = '0' then
      let (ds, rest') := takeDigits rest
      some (digitsToNat (c :: ds), rest')
    else none
  | [] => none

/-- Parse the optional fraction part: value, number of digits, rest. -/
def parseFracPart : List Char → Option (Nat × Nat × List Char)
  | '.' :: rest =>
    let (ds, rest') := takeDigits rest
    if List.length ds = 0 then none
    else some (digitsToNat ds, List.length ds, rest')
  | cs => some (0, 0, cs)

/-- Parse the optional exponent part: signed exponent and rest. -/
def parseExpPart : List Char → Option (Int × List Char)
  | c :: rest =>
    if c = 'e' ∨ c = 'E' then
      match rest with
      | '+' :: rest' =>
        let (ds, rest2) := takeDigits rest'
        if List.length ds = 0 then none else some ((digitsToNat ds : Int), rest2)
      | '-' :: rest' =>
        let (ds, rest2) := takeDigits rest'
        if List.length ds = 0 then none else some (-(digitsToNat ds : Int), rest2)
      | _ =>
        let (ds, rest2) := takeDigits rest
        if List.length ds = 0 then none else some ((digitsToNat ds : Int), rest2)
    else some (0, c :: rest)
  | [] => some (0, [])

/-- Parse a JSON number literal. -/
def parseNumber (cs : List Char) : Option (JsVal × List Char) :=
  let (neg, cs1) :=
    match cs with
    | '-' :: r => (true, r)
    | _ => (false, cs)
  match parseIntPart cs1 with
  | none => none
  | some (ip, r1) =>
    match parseFracPart r1 with
    | none => none
    | some (fp, fk, r2) =>
      match parseExpPart r2 with
      | none => none
      | some (ex, r3) =>
        let mant : Int := (ip * 10 ^ fk + fp : Nat)
        let mant := if neg then -mant else mant
        some (JsVal.num mant (ex - (fk : Int)), r3)

/-- Parse the body of a JSON string literal (the opening quote already
consumed), handling the escape sequences `JSON.parse` accepts. -/
def parseJsonString : List Char → Option (List Char × List Char)
  | [] => none
  | '"' :: rest => some ([], rest)
  | '\\' :: 'u' :: a :: b :: c :: d :: rest =>
    match hexVal a, hexVal b, hexVal c, hexVal d with
    | some ha, some hb, some hc, some hd =>
      let code := ((ha * 16 + hb) * 16 + hc) * 16 + hd
      if 0xd800 ≤ code ∧ code ≤ 0xdfff then none
      else
        match parseJsonString rest with
        | some (s, r) => some (Char.ofNat code :: s, r)
        | none => none
    | _, _, _, _ => none
  | '\\' :: e :: rest =>
    let ec : Option Char :=
      if e = '"' then some '"'
      else if e = '\\' then some '\\'
      else if e = '/' then some '/'
      else if e = 'b' then some '\x08'
      else if e = 'f' then some '\x0c'
      else if e = 'n' then some '\n'
      else if e = 'r' then some '\r'
      else if e = 't' then some '\t'
      else none
    match ec, parseJsonString rest with
    | some c, some (s, r) => some (c :: s, r)
    | _, _ => none
  | c :: rest =>
    if c.toNat < 32 then none
    else
      match parseJsonString rest with
      | some (s, r) => some (c :: s, r)
      | none => none

mutual

/-- Parse one JSON value (fuel-bounded recursion). -/
def parseJsonVal : Nat → List Char → Option (JsVal × List Char)
  | 0, _ => none
  | Nat.succ fuel, cs =>
    match skipWs cs with
    | 'n' :: 'u' :: 'l' :: 'l' :: r => some (JsVal.null, r)
    | 't' :: 'r' :: 'u' :: 'e' :: r => some (JsVal.bool true, r)
    | 'f' :: 'a' :: 'l' :: 's' :: 'e' :: r => some (JsVal.bool false, r)
    | '"' :: r =>
      match parseJsonString r with
      | some (s, r') => some (JsVal.str (String.mk s), r')
      | none => none
    | '[' :: r =>
      (match skipWs r with
       | ']' :: r' => some (JsVal.arr [], r')
       | r' => parseJsonArrItems fuel r')
    | '{' :: r =>
      (match skipWs r with
       | '}' :: r' => some (JsVal.obj [], r')
       | r' => parseJsonObjItems fuel r' [])
    | cs' => parseNumber cs'

/-- Parse the comma-separated items of a JSON array up to `]`. -/
def parseJsonArrItems : Nat → List Char → Option (JsVal × List Char)
  | 0, _ => none
  | Nat.succ fuel, cs =>
    match parseJsonVal fuel cs with
    | none => none
    | some (v, r) =>
      match skipWs r with
      | ',' :: r2 =>
        (match parseJsonArrItems fuel r2 with
         | some (JsVal.arr vs, r3) => some (JsVal.arr (v :: vs), r3)
         | _ => none)
      | ']' :: r2 => some (JsVal.arr [v], r2)
      | _ => none

/-- Parse the members of a JSON object up to `}`; duplicate keys overwrite
(last wins), as with `JSON.parse`. -/
def parseJsonObjItems : Nat → List Char → JsObj JsVal → Option (JsVal × List Char)
  | 0, _, _ => none
  | Nat.succ fuel, cs, acc =>
    match skipWs cs with
    | '"' :: r =>
      (match parseJsonString r with
       | none => none
       | some (k, r1) =>
         match skipWs r1 with
         | ':' :: r2 =>
           (match parseJsonVal fuel r2 with
            | none => none
            | some (v, r3) =>
              let acc' := jsSet acc (String.mk k) v
              match skipWs r3 with
              | ',' :: r4 => parseJsonObjItems fuel r4 acc'
              | '}' :: r4 => some (JsVal.obj acc', r4)
              | _ => none)
         | _ => none)
    | _ => none

end

/-- `JSON.parse`: parse one value and require only whitespace after it;
`none` models a thrown `SyntaxError`. -/
def jsonParse (s : String) : Option JsVal :=
  match parseJsonVal (2 * s.length + 4) s.toList with
  | some (v, rest) =>
    match skipWs rest with
    | [] => some v
    | _ => none
  | none => none

/-! ## Exceptions, promises, deadlines -/

/-- The framework's `Exception`, carrying an HTTP status code. -/
structure Exception where
  status : Nat
deriving DecidableEq

/-- A failed `resolveWithDeadline`: either the `DeadlineError` or the
wrapped promise's own rejection. -/
inductive DlFail where
  | deadline : DlFail
  | jsError (msg : String) : DlFail
deriving DecidableEq

/-- A promise, modelled by the time (ms) at which it settles and its
outcome (a value or a rejection message). -/
structure Promise (α : Type) where
  time : Nat
  result : Except String α

/-- `resolveWithDeadline(p, ms)` from the deno standard library: rejects
with a `DeadlineError` when the promise does not settle within `ms`
milliseconds, otherwise forwards the promise's outcome. -/
def deadlineRun {α : Type} (p : Promise α) (ms : Nat) : Except DlFail α :=
  if ms < p.time then Except.error DlFail.deadline
  else
    match p.result with
    | Except.ok v => Except.ok v
    | Except.error e => Except.error (DlFail.jsError e)

/-! ## Schemas and the platform `Request` -/

/-- A decoded request body: text, a JSON value, or flattened form-data
entries. -/
inductive BodyVal where
  | str (s : String) : BodyVal
  | jsonV (j : JsVal) : BodyVal
  | form (entries : JsObj String) : BodyVal

/-- A zod schema as the source consumes it: its `_def.typeName`, the
`_def.options` of a union, and `safeParse`, modelled as returning the
parsed data on success and `none` on failure. -/
inductive ZodType where
  | mk (typeName : String) (options : List ZodType)
    (safeParse : BodyVal → Option BodyVal) : ZodType

/-- The `_def.typeName` of a schema. -/
def ZodType.typeName : ZodType → String
  | ZodType.mk n _ _ => n

/-- The `_def.options` of a union schema. -/
def ZodType.options : ZodType → List ZodType
  | ZodType.mk _ o _ => o

/-- The schema's `safeParse`, success carrying the parsed data. -/
def ZodType.safeParse : ZodType → BodyVal → Option BodyVal
  | ZodType.mk _ _ f => f

/-- The schema bundle given at construction.  The cookies, headers and
query schemas are consumed only through `safeParse(..).success`, so they
are modelled by that success predicate; `transform` models the
`this.#s?.transform === true` flag. -/
structure SchemaBundle where
  body : Option ZodType
  cookies : Option (JsObj (Option String) → Bool)
  headers : Option (JsObj String → Bool)
  query : Option (JsObj JsVal → Bool)
  transform : Bool

/-- The platform `Request`: header entries in iteration order, the
consumed-stream flag, and one promise per reading operation, for the live
request and for the `clone()`d view. -/
structure Req where
  headers : List (String × String)
  bodyUsed : Bool
  textP : Promise String
  jsonP : Promise JsVal
  formDataP : Promise (List (String × String))
  blobP : Promise (List Nat)
  arrayBufferP : Promise (List Nat)
  cloneBlobP : Promise (List Nat)
  cloneArrayBufferP : Promise (List Nat)
  cloneFormDataP : Promise (List (String × String))

/-- `Headers.get(name)`: case-insensitive lookup, multiple values joined
by a comma and a space, `none` when the header is absent. -/
def headersGet (hs : List (String × String)) (name : String) : Option String :=
  match List.filter (fun p => jsToLower p.1 == jsToLower name) hs with
  | [] => none
  | x :: xs => some (List.foldl (fun acc p => acc ++ ", " ++ p.2) x.2 xs)

/-! ## The `RequestContext` class -/

/-- The `RequestContext` class: the constructor arguments `p`, `qs`, `r`,
`s` and the private slots `#c`, `#h`, `#q`, `#i`, all starting
uninitialized. -/
structure RequestContext where
  p : JsObj (Option String)
  qs : Option String
  r : Req
  s : Option SchemaBundle
  c : Option (JsObj (Option String)) := none
  h : Option (JsObj String) := none
  q : Option (JsObj JsVal) := none
  i : Option String := none

/-- The cookie-parsing expression of the `cookies` getter:
`header.split(/;\s*/).map(p => p.split(/=(.+)/)).reduce((acc, [k, v]) =>
{ acc[k] = v; return acc }, {})` followed by `delete acc['']`. -/
def parseCookiePairs (header : String) : JsObj (Option String) :=
  let m := List.foldl
    (fun acc pair =>
      let kv := cookiePairKV pair
      jsSet acc kv.1 kv.2)
    ([] : JsObj (Option String))
    (splitSemiWs header)
  jsDelete m ""

/-- The `try` block of the `cookies` getter: read the single `cookies`
header defaulting to the empty string, throw `Exception(413)` past the
1000-character guard, parse otherwise; the enclosing `catch (_err)` turns
any thrown value into the empty mapping. -/
def cookieRaw (ctx : RequestContext) : JsObj (Option String) :=
  let header := (headersGet ctx.r.headers "cookies").getD ""
  let attempt : Except Exception (JsObj (Option String)) :=
    if 1000 < header.length then Except.error (Exception.mk 413)
    else Except.ok (parseCookiePairs header)
  match attempt with
  | Except.ok m => m
  | Except.error _ => []

/-- The `cookies` getter.  Returns the result together with the context
after the call (the getter mutates the `#c` slot before validating). -/
def RequestContext.cookies (ctx : RequestContext) :
    Except Exception (Option (JsObj (Option String))) × RequestContext :=
  match ctx.c, Option.bind ctx.s SchemaBundle.cookies with
  | some m, _ => (Except.ok (some m), ctx)
  | none, none => (Except.ok none, ctx)
  | none, some sch =>
    let m := cookieRaw ctx
    let ctx' := { ctx with c := some m }
    if sch m then (Except.ok (some m), ctx')
    else (Except.error (Exception.mk 400), ctx')

/-- The header-mapping loop of the `headers` getter: iterate the entries,
break when `num` reaches 50, set the lower-cased key only when its current
value is falsy (`!this.#h[key.toLowerCase()]`), increment `num` on every
iteration. -/
def buildHeaders : List (String × String) → JsObj String → Nat → JsObj String
  | [], hm, _ => hm
  | (k, v) :: rest, hm, num =>
    if num = 50 then hm
    else
      let lk := jsToLower k
      let hm' := if jsFalsyStr (jsGet hm lk) then jsSet hm lk v else hm
      buildHeaders rest hm' (num + 1)

/-- The `headers` getter: build and cache the mapping, then validate it
when a headers schema was supplied. -/
def RequestContext.headers (ctx : RequestContext) :
    Except Exception (JsObj String) × RequestContext :=
  match ctx.h with
  | some m => (Except.ok m, ctx)
  | none =>
    let m := buildHeaders ctx.r.headers [] 0
    let ctx' := { ctx with h := some m }
    match Option.bind ctx.s SchemaBundle.headers with
    | some sch =>
      if sch m then (Except.ok m, ctx')
      else (Except.error (Exception.mk 400), ctx')
    | none => (Except.ok m, ctx')

/-- Failures the `query` getter can raise: the framework `Exception`, or
the `URIError` that escapes when `decodeURIComponent` fails inside the
`catch` block as well. -/
inductive QueryErr where
  | exc (e : Exception) : QueryErr
  | uriError : QueryErr
deriving DecidableEq

/-- Per-value coercion in the `query` getter:
`try { q[key] = JSON.parse(decodeURIComponent(value)) } catch
{ q[key] = decodeURIComponent(value) }`; `none` models the `URIError`
that escapes when the decode fails in the `catch` too. -/
def queryCoerce (value : String) : Option JsVal :=
  match decodeURIComponent value with
  | none => none
  | some s =>
    match jsonParse s with
    | some j => some j
    | none => some (JsVal.str s)

/-- The query-string loop: each segment is destructured by
`const [key, value] = seg.split('=')` (only the first two parts are
kept), a falsy key skips the segment, a missing value sets `true`, and
any other value is coerced.  The boolean marks an escaped `URIError`,
which aborts the loop. -/
def parseQuerySegs : List String → JsObj JsVal → JsObj JsVal × Bool
  | [], m => (m, false)
  | seg :: rest, m =>
    let parts := jsSplitChar '=' seg
    let key := List.headD parts ""
    if key = "" then parseQuerySegs rest m
    else
      match parts[1]? with
      | none => parseQuerySegs rest (jsSet m key (JsVal.bool true))
      | some v =>
        match queryCoerce v with
        | none => (m, true)
        | some jv => parseQuerySegs rest (jsSet m key jv)

/-- The parsed mapping and escaped-`URIError` flag of the `query` getter:
`#q` starts as the empty mapping and is filled from the split raw query
string only when that string is truthy (present and nonempty). -/
def queryParsed (ctx : RequestContext) : JsObj JsVal × Bool :=
  match ctx.qs with
  | none => (([] : JsObj JsVal), false)
  | some qstr =>
    if qstr = "" then ([], false)
    else parseQuerySegs (jsSplitChar '&' qstr) []

/-- The `query` getter: parse and cache the mapping, propagate an escaped
`URIError`, validate the cached mapping before returning it. -/
def RequestContext.query (ctx : RequestContext) :
    Except QueryErr (Option (JsObj JsVal)) × RequestContext :=
  match ctx.q, Option.bind ctx.s SchemaBundle.query with
  | some m, _ => (Except.ok (some m), ctx)
  | none, none => (Except.ok none, ctx)
  | none, some sch =>
    let parsed := queryParsed ctx
    let ctx' := { ctx with q := some parsed.1 }
    if parsed.2 then (Except.error QueryErr.uriError, ctx')
    else if sch parsed.1 then (Except.ok (some parsed.1), ctx')
    else (Except.error (QueryErr.exc (Exception.mk 400)), ctx')

/-- Flattening of form-data entries in the `body()` method:
`body[key] = value` per entry. -/
def flattenForm (entries : List (String × String)) : JsObj String :=
  List.foldl (fun acc kv => jsSet acc kv.1 kv.2) [] entries

/-- Tail of the `body()` method after the read: the `catch` clause maps a
`DeadlineError` to `Exception(413)` and any other rejection to
`Exception(400)`; a decoded value is then validated with `safeParse`, a
validation failure raises `Exception(400)` and success returns the parsed
data. -/
def bodyFinish (sch : ZodType) (read : Except DlFail BodyVal) :
    Except Exception (Option BodyVal) :=
  match read with
  | Except.error DlFail.deadline => Except.error (Exception.mk 413)
  | Except.error (DlFail.jsError _) => Except.error (Exception.mk 400)
  | Except.ok b =>
    match sch.safeParse b with
    | none => Except.error (Exception.mk 400)
    | some d => Except.ok (some d)

/-- The `body()` method.  The boolean records whether a body read was
performed. -/
def RequestContext.body (ctx : RequestContext) :
    Except Exception (Option BodyVal) × Bool :=
  match Option.bind ctx.s SchemaBundle.body with
  | none => (Except.ok none, false)
  | some sch =>
    let read : Except DlFail BodyVal :=
      if sch.typeName = "ZodString" ∨
          (sch.typeName = "ZodUnion" ∧
            List.all sch.options (fun o => o.typeName == "ZodString") = true) then
        Except.map BodyVal.str (deadlineRun ctx.r.textP 3000)
      else if Option.elim ctx.s false SchemaBundle.transform = true ∧
          headersGet ctx.r.headers "content-type" = some "multipart/form-data" then
        Except.map (fun es => BodyVal.form (flattenForm es))
          (deadlineRun ctx.r.formDataP 3000)
      else
        Except.map BodyVal.jsonV (deadlineRun ctx.r.jsonP 3000)
    (bodyFinish sch read, true)

/-- The default value (ms) of the raw readers' optional `deadline`
parameter. -/
def rawReaderDefaultDeadline : Nat := 2500

/-- The `blob(deadline = 2500)` method: clone-based fallback when the
stream is already consumed; the `catch` turns any failure into `null`.
The optional parameter's default is `rawReaderDefaultDeadline`. -/
def RequestContext.blob (ctx : RequestContext) (deadline : Nat) :
    Option (List Nat) :=
  let promise := if ctx.r.bodyUsed then ctx.r.cloneBlobP else ctx.r.blobP
  match deadlineRun promise deadline with
  | Except.ok v => some v
  | Except.error _ => none

/-- The `buffer(deadline = 2500)` method, reading an `ArrayBuffer`. -/
def RequestContext.buffer (ctx : RequestContext) (deadline : Nat) :
    Option (List Nat) :=
  let promise :=
    if ctx.r.bodyUsed then ctx.r.cloneArrayBufferP else ctx.r.arrayBufferP
  match deadlineRun promise deadline with
  | Except.ok v => some v
  | Except.error _ => none

/-- The `formData(deadline = 2500)` method. -/
def RequestContext.formData (ctx : RequestContext) (deadline : Nat) :
    Option (List (String × String)) :=
  let promise :=
    if ctx.r.bodyUsed then ctx.r.cloneFormDataP else ctx.r.formDataP
  match deadlineRun promise deadline with
  | Except.ok v => some v
  | Except.error _ => none

/-! ## Specification-side definitions used for refinement comparisons -/

/-- The header rule as the specification words it: keep only the
first-seen value per lower-cased key, and stop after 50 distinct
header-set-operations (ignored duplicates do not count). -/
def buildHeadersSpec : List (String × String) → JsObj String → Nat → JsObj String
  | [], hm, _ => hm
  | (k, v) :: rest, hm, num =>
    if num = 50 then hm
    else
      let lk := jsToLower k
      match jsGet hm lk with
      | some _ => buildHeadersSpec rest hm num
      | none => buildHeadersSpec rest (jsSet hm lk v) (num + 1)

/-- The three decoding strategies of the body pipeline. -/
inductive ReadKind where
  | text : ReadKind
  | form : ReadKind
  | json : ReadKind
deriving DecidableEq

/-- Strategy selection as the specification words it: text when the
declared shape is exactly a string type or a union whose every member is
a string type; else form data when the transform flag is set and the
content type is exactly `multipart/form-data`; else JSON. -/
def bodyStrategySpec (sch : ZodType) (transform : Bool)
    (contentType : Option String) : ReadKind :=
  if sch.typeName = "ZodString" ∨
      (sch.typeName = "ZodUnion" ∧ ∀ o ∈ sch.options, o.typeName = "ZodString") then
    ReadKind.text
  else if transform = true ∧ contentType = some "multipart/form-data" then
    ReadKind.form
  else ReadKind.json

/-- One deadline-bounded (3000 ms) read of the given kind, as the
specification describes the three reads. -/
def readBody (k : ReadKind) (r : Req) : Except DlFail BodyVal :=
  match k with
  | ReadKind.text => Except.map BodyVal.str (deadlineRun r.textP 3000)
  | ReadKind.form =>
    Except.map (fun es => BodyVal.form (flattenForm es)) (deadlineRun r.formDataP 3000)
  | ReadKind.json => Except.map BodyVal.jsonV (deadlineRun r.jsonP 3000)

/-! ## Helper lemmas -/

/-- Deleting a key removes it from the mapping. -/
theorem jsGet_jsDelete_self {α : Type} (o : JsObj α) (k : String) :
    jsGet (jsDelete o k) k = none := by
  have h : List.find? (fun p => p.1 == k) (jsDelete o k) = none := by
    rw [List.find?_eq_none]
    intro x hx
    have hmem := (List.mem_filter.mp hx).2
    simpa using hmem
  unfold jsGet
  rw [h]
  rfl

/-- A property write grows the object by at most one entry. -/
theorem jsSize_jsSet_le {α : Type} (o : JsObj α) (k : String) (v : α) :
    jsSize (jsSet o k v) ≤ jsSize o + 1 := by
  unfold jsSize jsSet
  by_cases h : List.any o (fun p => p.1 == k) = true
  · simp [h]
  · simp [h]

/-- The header-mapping loop never grows the mapping past 50 entries. -/
theorem buildHeaders_size_le :
    ∀ (entries : List (String × String)) (hm : JsObj String) (num : Nat),
      num ≤ 50 → jsSize hm ≤ num → jsSize (buildHeaders entries hm num) ≤ 50 := by
  intro entries
  induction entries with
  | nil =>
    intro hm num h1 h2
    simpa [buildHeaders] using h2.trans h1
  | cons e rest ih =>
    intro hm num h1 h2
    rcases e with ⟨k, v⟩
    by_cases h50 : num = 50
    · simpa [buildHeaders, h50] using h2.trans h1
    · have hlt : num < 50 := lt_of_le_of_ne h1 h50
      by_cases hf : jsFalsyStr (jsGet hm (jsToLower k)) = true
      · have hsz : jsSize (jsSet hm (jsToLower k) v) ≤ num + 1 :=
          le_trans (jsSize_jsSet_le hm (jsToLower k) v) (Nat.add_le_add_right h2 1)
        simpa [buildHeaders, h50, hf] using
          ih (jsSet hm (jsToLower k) v) (num + 1) hlt hsz
      · simpa [buildHeaders, h50, hf] using
          ih hm (num + 1) hlt (h2.trans (Nat.le_succ num))

/-! ## Concrete fixtures -/

/-- A promise already settled with the given value. -/
def instantP {α : Type} (v : α) : Promise α := ⟨0, Except.ok v⟩

/-- A request with the given header entries and trivially settled reader
promises. -/
def plainReq (hs : List (String × String)) : Req :=
  ⟨hs, false, instantP "", instantP JsVal.null, instantP [], instantP [],
    instantP [], instantP [], instantP [], instantP []⟩

/-- A cookies header of 1001 `x` characters. -/
def longCookieHeader : String := String.mk (List.replicate 1001 'x')

/-- A bundle whose cookies schema accepts every mapping. -/
def acceptCookiesBundle : SchemaBundle :=
  ⟨none, some (fun _ => true), none, none, false⟩

/-- A bundle whose cookies schema rejects every mapping. -/
def rejectCookiesBundle : SchemaBundle :=
  ⟨none, some (fun _ => false), none, none, false⟩

/-- A bundle whose query schema accepts every mapping. -/
def acceptQueryBundle : SchemaBundle :=
  ⟨none, none, none, some (fun _ => true), false⟩

/-- Context of a request carrying the 1001-character cookies header,
with a cookies schema that accepts everything. -/
def ctxOverlongCookie : RequestContext :=
  { p := [], qs := none, r := plainReq [("cookies", longCookieHeader)],
    s := some acceptCookiesBundle }

/-- Context of a request with cookie `a=1` and a cookies schema that
rejects every mapping. -/
def ctxRejectedCookie : RequestContext :=
  { p := [], qs := none, r := plainReq [("cookies", "a=1")],
    s := some rejectCookiesBundle }

/-- Context with the specification's example query string and a query
schema accepting any mapping. -/
def ctxQueryExample : RequestContext :=
  { p := [], qs := some "a=1&b=true&c=%22x%22&d", r := plainReq [],
    s := some acceptQueryBundle }

/-- Fifty-one header entries: key `a` twice within the first fifty, and a
fresh key `z` as the 51st entry. -/
def exFiftyOne : List (String × String) :=
  ("a", "1") :: ("A", "2") ::
    (List.map (fun i => (String.mk ['h', Char.ofNat (33 + i)], "v"))
      (List.range 48) ++ [("z", "1")])

/-- A successful `bodyFinish` result is the parsed data of a decoded value
the schema accepted. -/
theorem bodyFinish_ok (sch : ZodType) (read : Except DlFail BodyVal) (v : BodyVal) :
    bodyFinish sch read = Except.ok (some v) →
    ∃ bv, sch.safeParse bv = some v := by
  intro h
  rcases read with e | b
  · rcases e with _ | msg <;> simp [bodyFinish] at h
  · simp only [bodyFinish] at h
    rcases hsp : sch.safeParse b with _ | d
    · rw [hsp] at h
      simp at h
    · rw [hsp] at h
      simp at h
      subst h
      exact ⟨b, hsp⟩

/-- A bundle whose headers schema rejects every mapping. -/
def rejectHeadersBundle : SchemaBundle :=
  ⟨none, none, some (fun _ => false), none, false⟩

/-- A bundle whose query schema rejects every mapping. -/
def rejectQueryBundle : SchemaBundle :=
  ⟨none, none, none, some (fun _ => false), false⟩

/-- A body schema rejecting every decoded value. -/
def rejectBodySchema : ZodType := ZodType.mk "ZodObject" [] (fun _ => none)

/-- A bundle carrying only the everything-rejecting body schema. -/
def rejectBodyBundle : SchemaBundle := ⟨some rejectBodySchema, none, none, none, false⟩

/-- A body schema accepting every decoded value unchanged. -/
def anyBodySchema : ZodType := ZodType.mk "ZodObject" [] (fun b => some b)

/-- A bundle carrying only the everything-accepting body schema. -/
def anyBodyBundle : SchemaBundle := ⟨some anyBodySchema, none, none, none, false⟩

/-- Context with one header entry and a headers schema rejecting every
mapping. -/
def ctxRejectedHeaders : RequestContext :=
  { p := [], qs := none, r := plainReq [("x-a", "1")], s := some rejectHeadersBundle }

/-- Context with query string `a=1` and a query schema rejecting every
mapping. -/
def ctxRejectedQuery : RequestContext :=
  { p := [], qs := some "a=1", r := plainReq [], s := some rejectQueryBundle }

/-- Context whose body schema rejects every decoded value. -/
def ctxRejectedBody : RequestContext :=
  { p := [], qs := none, r := plainReq [], s := some rejectBodyBundle }

/-- Context with no schema bundle at all. -/
def ctxNoSchema : RequestContext :=
  { p := [], qs := none, r := plainReq [], s := none }

/-- Request whose body readers settle only after 5000 ms. -/
def slowReq : Req :=
  ⟨[], false, ⟨5000, Except.ok ""⟩, ⟨5000, Except.ok JsVal.null⟩,
    ⟨5000, Except.ok []⟩, instantP [], instantP [], instantP [], instantP [],
    instantP []⟩

/-- Context whose body readers are too slow for the 3000 ms deadline. -/
def ctxSlowBody : RequestContext :=
  { p := [], qs := none, r := slowReq, s := some anyBodyBundle }

/-- Request whose body readers reject immediately. -/
def errReq : Req :=
  ⟨[], false, ⟨0, Except.error "bad"⟩, ⟨0, Except.error "invalid json"⟩,
    ⟨0, Except.error "bad"⟩, instantP [], instantP [], instantP [], instantP [],
    instantP []⟩

/-- Context whose body readers reject immediately. -/
def ctxErrBody : RequestContext :=
  { p := [], qs := none, r := errReq, s := some anyBodyBundle }

/-! ## Claims -/

/-- C1: the claim says a `cookies` header longer than 1000 characters makes
the first access to the cookie accessor fail with a PayloadTooLarge (413)
classification.  In the code the `throw new Exception(413)` sits inside the
`try` block whose `catch (_err)` replaces any thrown value by the empty
mapping, so the 413 can never escape: the accessor either succeeds or
raises the validation 400, and on the concrete 1001-character header it
returns the empty mapping successfully. -/
theorem cookies_overlong_header_swallowed :
    (∀ ctx : RequestContext,
      (RequestContext.cookies ctx).1 = Except.error (Exception.mk 400) ∨
      ∃ v, (RequestContext.cookies ctx).1 = Except.ok v) ∧
    1000 < longCookieHeader.length ∧
    (RequestContext.cookies ctxOverlongCookie).1 = Except.ok (some []) := by
  refine ⟨?_, by decide, rfl⟩
  intro ctx
  rcases hc : ctx.c with _ | m
  · rcases hs : Option.bind ctx.s SchemaBundle.cookies with _ | sch
    · right
      exact ⟨none, by simp [RequestContext.cookies, hc, hs]⟩
    · by_cases hv : sch (cookieRaw ctx) = true
      · right
        exact ⟨some (cookieRaw ctx), by simp [RequestContext.cookies, hc, hs, hv]⟩
      · left
        simp [RequestContext.cookies, hc, hs, hv]
  · right
    exact ⟨some m, by simp [RequestContext.cookies, hc]⟩

/-- C4 counterexample: the header `"a=1; b=2; c="` does not yield the
mapping `{a:"1", b:"2", c:""}`; the regex `=(.+)` needs a character after
the `=`, so the pair `"c="` is not split and the mapping gains the key
`"c="` bound to `undefined` while the key `"c"` is absent. -/
theorem cookie_trailing_eq_cex :
    parseCookiePairs "a=1; b=2; c=" =
      [("a", some "1"), ("b", some "2"), ("c=", none)] ∧
    jsGet (parseCookiePairs "a=1; b=2; c=") "c" = none ∧
    ¬ parseCookiePairs "a=1; b=2; c=" =
      [("a", some "1"), ("b", some "2"), ("c", some "")] :=
  ⟨rfl, rfl, by decide⟩

/-- C4 amended: the cookie parser splits the header on `;` plus optional
whitespace and splits each pair at the first `=` that is followed by at
least one character (so a value may contain `=`, but a pair ending in a
bare `=` is not split: the whole pair, `=` included, becomes a key bound to
`undefined`); pairs whose key is empty are discarded and duplicates fold
last-wins; the header `"a=1; b=2; c="` yields exactly
`{a:"1", b:"2", "c=": undefined}`. -/
theorem cookie_parse_amended :
    parseCookiePairs "a=1; b=2; c=" =
      [("a", some "1"), ("b", some "2"), ("c=", none)] ∧
    parseCookiePairs "a=1; a=2" = [("a", some "2")] ∧
    parseCookiePairs "a=b=c" = [("a", some "b=c")] ∧
    parseCookiePairs "a=1;  b=2" = [("a", some "1"), ("b", some "2")] ∧
    parseCookiePairs ";;" = [] ∧
    parseCookiePairs "=x" = [] ∧
    (∀ header, jsGet (parseCookiePairs header) "" = none) := by
  refine ⟨rfl, rfl, rfl, rfl, rfl, rfl, ?_⟩
  intro header
  unfold parseCookiePairs
  exact jsGet_jsDelete_self _ ""

/-- C5 counterexample: the query accessor destructures
`seg.split('=')` into its first two parts only, so in `"a=b=c"` the value
is truncated to `"b"` (JSON-parse fails, the decoded string is used) and
is not `"b=c"` as the claim's first-`=`-split rule would give. -/
theorem query_split_truncates_cex :
    parseQuerySegs ["a=b=c"] [] = ([("a", JsVal.str "b")], false) ∧
    ¬ parseQuerySegs ["a=b=c"] [] = ([("a", JsVal.str "b=c")], false) := by
  have e : parseQuerySegs ["a=b=c"] [] = ([("a", JsVal.str "b")], false) := rfl
  refine ⟨e, ?_⟩
  rw [e]
  simp

/-- C5 amended: the query accessor splits the raw query string on `&` and
destructures each segment by `split('=')` keeping only the first two
parts, so a value containing `=` is truncated at the second `=`; a segment
with no key is skipped, a key with no `=` maps to boolean `true`, and
otherwise the URL-decoded value is JSON-parsed with fallback to the
decoded string; `"a=1&b=true&c=%22x%22&d"` parses to
`{a:1, b:true, c:"x", d:true}`. -/
theorem query_parse_amended :
    parseQuerySegs (jsSplitChar '&' "a=1&b=true&c=%22x%22&d") [] =
      ([("a", JsVal.num 1 0), ("b", JsVal.bool true), ("c", JsVal.str "x"),
        ("d", JsVal.bool true)], false) ∧
    (RequestContext.query ctxQueryExample).1 =
      Except.ok (some [("a", JsVal.num 1 0), ("b", JsVal.bool true),
        ("c", JsVal.str "x"), ("d", JsVal.bool true)]) ∧
    parseQuerySegs ["a=b=c"] [] = ([("a", JsVal.str "b")], false) ∧
    (∀ rest m, parseQuerySegs ("" :: rest) m = parseQuerySegs rest m) ∧
    parseQuerySegs ["=5"] [] = ([], false) ∧
    parseQuerySegs ["a"] [] = ([("a", JsVal.bool true)], false) := by
  refine ⟨rfl, rfl, rfl, ?_, rfl, rfl⟩
  intro rest m
  rfl

/-- C6 counterexample: the header accessor does not keep the first-seen
value when that value is the empty string (the `!this.#h[k]` guard is a
falsiness test, so a later duplicate overwrites an empty first value), and
it stops after 50 loop iterations rather than 50 set-operations: on the
51-entry list with one ignored duplicate, the claim's rule would set the
51st key `z` but the code never examines it. -/
theorem header_first_seen_and_cap_cex :
    buildHeaders [("A", ""), ("a", "x")] [] 0 = [("a", "x")] ∧
    ¬ buildHeaders [("A", ""), ("a", "x")] [] 0 = [("a", "")] ∧
    jsGet (buildHeaders exFiftyOne [] 0) "z" = none ∧
    jsGet (buildHeadersSpec exFiftyOne [] 0) "z" = some "1" :=
  ⟨rfl, by decide, rfl, rfl⟩

/-- C6 amended: on first access the header accessor iterates the request's
header entries, lower-cases each key, and sets a key only when its current
value is absent or empty — so a later duplicate is ignored unless the
first-seen value was the empty string, which it overwrites — stopping
after examining 50 header entries (iterations, not set-operations); the
cached mapping therefore never has more than 50 entries. -/
theorem header_cap_amended :
    (∀ entries, jsSize (buildHeaders entries [] 0) ≤ 50) ∧
    buildHeaders [("A", ""), ("a", "x")] [] 0 = [("a", "x")] ∧
    buildHeaders [("Content-Type", "t"), ("content-type", "u")] [] 0 =
      [("content-type", "t")] ∧
    jsSize exFiftyOne = 51 ∧
    jsGet (buildHeaders exFiftyOne [] 0) "z" = none ∧
    jsSize (buildHeaders exFiftyOne [] 0) = 49 := by
  refine ⟨?_, rfl, rfl, rfl, rfl, rfl⟩
  intro entries
  exact buildHeaders_size_le entries [] 0 (by norm_num) (Nat.le_refl 0)

/-- C2 counterexample: the parsed cookies are cached in `#c` before
validation, so after the first access raised 400 the second access returns
the cached mapping that the schema rejected — the accessor does expose a
value that failed its schema on repeated access. -/
theorem invalid_cached_cookies_returned_cex :
    (RequestContext.cookies ctxRejectedCookie).1 =
      Except.error (Exception.mk 400) ∧
    ((RequestContext.cookies ctxRejectedCookie).2).c = some [("a", some "1")] ∧
    (RequestContext.cookies ((RequestContext.cookies ctxRejectedCookie).2)).1 =
      Except.ok (some [("a", some "1")]) ∧
    (fun _ => false : JsObj (Option String) → Bool) [("a", some "1")] = false ∧
    Option.bind ctxRejectedCookie.s SchemaBundle.cookies =
      some (fun _ => false) :=
  ⟨rfl, rfl, rfl, rfl, rfl⟩

/-- C2 amended: whenever the parsed value fails its supplied schema the
first access to the accessor raises BadRequest (400), for all four
validated fields; the uncached body accessor never returns a value that
failed its schema (its successful result is always data the schema
accepted); but cookies, headers and query cache the parsed value before
validating, so accesses after a failed first access return the invalid
cached value without re-validation. -/
theorem schema_rejection_first_access :
    (∀ ctx sch, ctx.c = none →
      Option.bind ctx.s SchemaBundle.cookies = some sch →
      sch (cookieRaw ctx) = false →
      (RequestContext.cookies ctx).1 = Except.error (Exception.mk 400)) ∧
    (∀ ctx sch, ctx.h = none →
      Option.bind ctx.s SchemaBundle.headers = some sch →
      sch (buildHeaders ctx.r.headers [] 0) = false →
      (RequestContext.headers ctx).1 = Except.error (Exception.mk 400)) ∧
    (∀ ctx sch, ctx.q = none →
      Option.bind ctx.s SchemaBundle.query = some sch →
      (queryParsed ctx).2 = false →
      sch (queryParsed ctx).1 = false →
      (RequestContext.query ctx).1 =
        Except.error (QueryErr.exc (Exception.mk 400))) ∧
    (∀ ctx sch t j f,
      Option.bind ctx.s SchemaBundle.body = some sch →
      (∀ bv, sch.safeParse bv = none) →
      ctx.r.textP.time ≤ 3000 → ctx.r.jsonP.time ≤ 3000 →
      ctx.r.formDataP.time ≤ 3000 →
      ctx.r.textP.result = Except.ok t →
      ctx.r.jsonP.result = Except.ok j →
      ctx.r.formDataP.result = Except.ok f →
      (RequestContext.body ctx).1 = Except.error (Exception.mk 400)) ∧
    (∀ ctx v, (RequestContext.body ctx).1 = Except.ok (some v) →
      ∃ sch bv, Option.bind ctx.s SchemaBundle.body = some sch ∧
        sch.safeParse bv = some v) := by
  refine ⟨?_, ?_, ?_, ?_, ?_⟩
  · intro ctx sch hc hs hv
    simp [RequestContext.cookies, hc, hs, hv]
  · intro ctx sch hh hs hv
    simp [RequestContext.headers, hh, hs, hv]
  · intro ctx sch hq hs hflag hv
    simp [RequestContext.query, hq, hs, hflag, hv]
  · intro ctx sch t j f hb hrej ht hj hf hrt hrj hrf
    simp [RequestContext.body, hb, deadlineRun, Nat.not_lt.mpr ht,
      Nat.not_lt.mpr hj, Nat.not_lt.mpr hf, hrt, hrj, hrf, bodyFinish,
      Except.map, hrej]
    split_ifs <;> simp [hrej]
  · intro ctx v hok
    rcases hb : Option.bind ctx.s SchemaBundle.body with _ | sch
    · unfold RequestContext.body at hok
      rw [hb] at hok
      simp at hok
    · unfold RequestContext.body at hok
      rw [hb] at hok
      simp only at hok
      obtain ⟨bv, hbv⟩ := bodyFinish_ok sch _ v hok
      exact ⟨sch, bv, rfl, hbv⟩

/-- C2 witness: the first accesses with everything-rejecting schemas raise
400 for all four fields. -/
theorem schema_rejection_first_access_witness :
    (RequestContext.cookies ctxRejectedCookie).1 =
      Except.error (Exception.mk 400) ∧
    (RequestContext.headers ctxRejectedHeaders).1 =
      Except.error (Exception.mk 400) ∧
    (RequestContext.query ctxRejectedQuery).1 =
      Except.error (QueryErr.exc (Exception.mk 400)) ∧
    (RequestContext.body ctxRejectedBody).1 = Except.error (Exception.mk 400) :=
  ⟨schema_rejection_first_access.1 ctxRejectedCookie (fun _ => false) rfl rfl rfl,
   schema_rejection_first_access.2.1 ctxRejectedHeaders (fun _ => false) rfl rfl rfl,
   schema_rejection_first_access.2.2.1 ctxRejectedQuery (fun _ => false) rfl rfl rfl rfl,
   schema_rejection_first_access.2.2.2.1 ctxRejectedBody rejectBodySchema ""
     JsVal.null [] rfl (fun _ => rfl) (by decide) (by decide) (by decide)
     rfl rfl rfl⟩

/-- C3: the body accessor is a no-op returning `undefined` without any
read when no body schema was supplied; otherwise every read is bounded by
the 3000 ms deadline — when no reader settles within 3000 ms the accessor
fails with 413, and when the readers settle in time but reject, it fails
with 400. -/
theorem body_no_schema_and_deadline_mapping :
    (∀ ctx, Option.bind ctx.s SchemaBundle.body = none →
      RequestContext.body ctx = (Except.ok none, false)) ∧
    (∀ ctx sch, Option.bind ctx.s SchemaBundle.body = some sch →
      3000 < ctx.r.textP.time → 3000 < ctx.r.jsonP.time →
      3000 < ctx.r.formDataP.time →
      RequestContext.body ctx = (Except.error (Exception.mk 413), true)) ∧
    (∀ ctx sch e1 e2 e3, Option.bind ctx.s SchemaBundle.body = some sch →
      ctx.r.textP.time ≤ 3000 → ctx.r.jsonP.time ≤ 3000 →
      ctx.r.formDataP.time ≤ 3000 →
      ctx.r.textP.result = Except.error e1 →
      ctx.r.jsonP.result = Except.error e2 →
      ctx.r.formDataP.result = Except.error e3 →
      RequestContext.body ctx = (Except.error (Exception.mk 400), true)) := by
  refine ⟨?_, ?_, ?_⟩
  · intro ctx hb
    simp [RequestContext.body, hb]
  · intro ctx sch hb ht hj hf
    simp [RequestContext.body, hb, deadlineRun, ht, hj, hf, bodyFinish,
      Except.map]
  · intro ctx sch e1 e2 e3 hb ht hj hf hrt hrj hrf
    simp [RequestContext.body, hb, deadlineRun, Nat.not_lt.mpr ht,
      Nat.not_lt.mpr hj, Nat.not_lt.mpr hf, hrt, hrj, hrf, bodyFinish,
      Except.map]
    split_ifs <;> rfl

/-- C3 witness: no-schema context returns `undefined` without reading, the
5000 ms readers raise 413, the immediately rejecting readers raise 400. -/
theorem body_no_schema_and_deadline_mapping_witness :
    RequestContext.body ctxNoSchema = (Except.ok none, false) ∧
    RequestContext.body ctxSlowBody = (Except.error (Exception.mk 413), true) ∧
    RequestContext.body ctxErrBody = (Except.error (Exception.mk 400), true) :=
  ⟨body_no_schema_and_deadline_mapping.1 ctxNoSchema rfl,
   body_no_schema_and_deadline_mapping.2.1 ctxSlowBody anyBodySchema rfl
     (by decide) (by decide) (by decide),
   body_no_schema_and_deadline_mapping.2.2 ctxErrBody anyBodySchema
     "bad" "invalid json" "bad" rfl (by decide) (by decide) (by decide)
     rfl rfl rfl⟩

/-- C7: every cache-slotted accessor (cookies, headers, query) returns a
populated slot verbatim without touching the context, the context reached
after a first invocation is a fixed point of the accessor, and from the
second invocation on every call returns the identical result — even when
the populated value is the empty mapping. -/
theorem cache_slots_idempotent :
    (∀ ctx m, ctx.c = some m →
      RequestContext.cookies ctx = (Except.ok (some m), ctx)) ∧
    (∀ ctx m, ctx.h = some m →
      RequestContext.headers ctx = (Except.ok m, ctx)) ∧
    (∀ ctx m, ctx.q = some m →
      RequestContext.query ctx = (Except.ok (some m), ctx)) ∧
    (∀ ctx, (RequestContext.cookies ((RequestContext.cookies ctx).2)).2 =
      (RequestContext.cookies ctx).2) ∧
    (∀ ctx, (RequestContext.headers ((RequestContext.headers ctx).2)).2 =
      (RequestContext.headers ctx).2) ∧
    (∀ ctx, (RequestContext.query ((RequestContext.query ctx).2)).2 =
      (RequestContext.query ctx).2) ∧
    (∀ ctx, RequestContext.cookies
        ((RequestContext.cookies ((RequestContext.cookies ctx).2)).2) =
      RequestContext.cookies ((RequestContext.cookies ctx).2)) ∧
    (∀ ctx, RequestContext.headers
        ((RequestContext.headers ((RequestContext.headers ctx).2)).2) =
      RequestContext.headers ((RequestContext.headers ctx).2)) ∧
    (∀ ctx, RequestContext.query
        ((RequestContext.query ((RequestContext.query ctx).2)).2) =
      RequestContext.query ((RequestContext.query ctx).2)) := by
  have hc : ∀ ctx m, ctx.c = some m →
      RequestContext.cookies ctx = (Except.ok (some m), ctx) := by
    intro ctx m h
    simp [RequestContext.cookies, h]
  have hh : ∀ ctx m, ctx.h = some m →
      RequestContext.headers ctx = (Except.ok m, ctx) := by
    intro ctx m h
    simp [RequestContext.headers, h]
  have hq : ∀ ctx m, ctx.q = some m →
      RequestContext.query ctx = (Except.ok (some m), ctx) := by
    intro ctx m h
    simp [RequestContext.query, h]
  have fixc : ∀ ctx, (RequestContext.cookies ((RequestContext.cookies ctx).2)).2 =
      (RequestContext.cookies ctx).2 := by
    intro ctx
    rcases h : ctx.c with _ | m
    · rcases hs : Option.bind ctx.s SchemaBundle.cookies with _ | sch
      · have e : RequestContext.cookies ctx = (Except.ok none, ctx) := by
          simp [RequestContext.cookies, h, hs]
        simp [e]
      · by_cases hv : sch (cookieRaw ctx) = true
        · have e : RequestContext.cookies ctx =
              (Except.ok (some (cookieRaw ctx)),
                { ctx with c := some (cookieRaw ctx) }) := by
            simp [RequestContext.cookies, h, hs, hv]
          rw [e]
          exact congrArg Prod.snd (hc _ (cookieRaw ctx) rfl)
        · have e : RequestContext.cookies ctx =
              (Except.error (Exception.mk 400),
                { ctx with c := some (cookieRaw ctx) }) := by
            simp [RequestContext.cookies, h, hs, hv]
          rw [e]
          simp [hc { ctx with c := some (cookieRaw ctx) } (cookieRaw ctx) rfl]
    · rw [hc ctx m h]
      exact congrArg Prod.snd (hc ctx m h)
  have fixh : ∀ ctx, (RequestContext.headers ((RequestContext.headers ctx).2)).2 =
      (RequestContext.headers ctx).2 := by
    intro ctx
    rcases h : ctx.h with _ | m
    · rcases hs : Option.bind ctx.s SchemaBundle.headers with _ | sch
      · have e : RequestContext.headers ctx =
            (Except.ok (buildHeaders ctx.r.headers [] 0),
              { ctx with h := some (buildHeaders ctx.r.headers [] 0) }) := by
          simp [RequestContext.headers, h, hs]
        rw [e]
        exact congrArg Prod.snd (hh _ _ rfl)
      · by_cases hv : sch (buildHeaders ctx.r.headers [] 0) = true
        · have e : RequestContext.headers ctx =
              (Except.ok (buildHeaders ctx.r.headers [] 0),
                { ctx with h := some (buildHeaders ctx.r.headers [] 0) }) := by
            simp [RequestContext.headers, h, hs, hv]
          rw [e]
          exact congrArg Prod.snd (hh _ _ rfl)
        · have e : RequestContext.headers ctx =
              (Except.error (Exception.mk 400),
                { ctx with h := some (buildHeaders ctx.r.headers [] 0) }) := by
            simp [RequestContext.headers, h, hs, hv]
          rw [e]
          simp [hh { ctx with h := some (buildHeaders ctx.r.headers [] 0) }
            (buildHeaders ctx.r.headers [] 0) rfl]
    · rw [hh ctx m h]
      exact congrArg Prod.snd (hh ctx m h)
  have fixq : ∀ ctx, (RequestContext.query ((RequestContext.query ctx).2)).2 =
      (RequestContext.query ctx).2 := by
    intro ctx
    rcases h : ctx.q with _ | m
    · rcases hs : Option.bind ctx.s SchemaBundle.query with _ | sch
      · have e : RequestContext.query ctx = (Except.ok none, ctx) := by
          simp [RequestContext.query, h, hs]
        simp [e]
      · by_cases hu : (queryParsed ctx).2 = true
        · have e : RequestContext.query ctx =
              (Except.error QueryErr.uriError,
                { ctx with q := some (queryParsed ctx).1 }) := by
            simp [RequestContext.query, h, hs, hu]
          rw [e]
          simp [hq { ctx with q := some (queryParsed ctx).1 } (queryParsed ctx).1 rfl]
        · by_cases hv : sch (queryParsed ctx).1 = true
          · have e : RequestContext.query ctx =
                (Except.ok (some (queryParsed ctx).1),
                  { ctx with q := some (queryParsed ctx).1 }) := by
              simp [RequestContext.query, h, hs, hu, hv]
            rw [e]
            simp [hq { ctx with q := some (queryParsed ctx).1 } (queryParsed ctx).1 rfl]
          · have e : RequestContext.query ctx =
                (Except.error (QueryErr.exc (Exception.mk 400)),
                  { ctx with q := some (queryParsed ctx).1 }) := by
              simp [RequestContext.query, h, hs, hu, hv]
            rw [e]
            simp [hq { ctx with q := some (queryParsed ctx).1 } (queryParsed ctx).1 rfl]
    · rw [hq ctx m h]
      exact congrArg Prod.snd (hq ctx m h)
  exact ⟨hc, hh, hq, fixc, fixh, fixq,
    fun ctx => by rw [fixc ctx],
    fun ctx => by rw [fixh ctx],
    fun ctx => by rw [fixq ctx]⟩

/-- Context whose three cache slots are pre-populated, the cookie and
query slots with the empty mapping. -/
def ctxPopulated : RequestContext :=
  { p := [], qs := none, r := plainReq [], s := none,
    c := some [], h := some [("a", "1")], q := some [] }

/-- C7 witness: on the concretely populated context every accessor
returns the cached value verbatim with the context unchanged. -/
theorem cache_slots_idempotent_witness :
    RequestContext.cookies ctxPopulated = (Except.ok (some []), ctxPopulated) ∧
    RequestContext.headers ctxPopulated = (Except.ok [("a", "1")], ctxPopulated) ∧
    RequestContext.query ctxPopulated = (Except.ok (some []), ctxPopulated) :=
  ⟨cache_slots_idempotent.1 ctxPopulated [] rfl,
   cache_slots_idempotent.2.1 ctxPopulated [("a", "1")] rfl,
   cache_slots_idempotent.2.2.1 ctxPopulated [] rfl⟩

/-- C8: for any context with a body schema, the body accessor's result is
exactly the deadline-bounded read selected by the specification's
strategy rule (string-shaped schema → text; else transform flag and
content type exactly `multipart/form-data` → flattened form data; else
JSON), followed by the error mapping and validation. -/
theorem body_strategy_selection :
    ∀ ctx b sch, ctx.s = some b → b.body = some sch →
      RequestContext.body ctx =
        (bodyFinish sch (readBody (bodyStrategySpec sch b.transform
          (headersGet ctx.r.headers "content-type")) ctx.r), true) := by
  intro ctx b sch hs hb
  unfold RequestContext.body
  rw [hs]
  simp only [Option.bind]
  rw [hb]
  apply congrArg (fun rd => (bodyFinish sch rd, true))
  by_cases htext : sch.typeName = "ZodString" ∨
      (sch.typeName = "ZodUnion" ∧ ∀ o ∈ sch.options, o.typeName = "ZodString")
  · have htext2 : sch.typeName = "ZodString" ∨
        (sch.typeName = "ZodUnion" ∧
          List.all sch.options (fun o => o.typeName == "ZodString") = true) := by
      simpa [List.all_eq_true] using htext
    simp [bodyStrategySpec, readBody, htext, htext2]
  · have htext2 : ¬ (sch.typeName = "ZodString" ∨
        (sch.typeName = "ZodUnion" ∧
          List.all sch.options (fun o => o.typeName == "ZodString") = true)) := by
      simpa [List.all_eq_true] using htext
    by_cases hform : b.transform = true ∧
        headersGet ctx.r.headers "content-type" = some "multipart/form-data"
    · simp [bodyStrategySpec, readBody, htext, htext2, hform, Option.elim]
    · simp [bodyStrategySpec, readBody, htext, htext2, hform, Option.elim]

/-- A string-shaped body schema accepting everything. -/
def strBodySchema : ZodType := ZodType.mk "ZodString" [] (fun b => some b)

/-- A bundle carrying only the string-shaped body schema. -/
def strBodyBundle : SchemaBundle := ⟨some strBodySchema, none, none, none, false⟩

/-- Context with the string-shaped body schema. -/
def ctxStrBody : RequestContext :=
  { p := [], qs := none, r := plainReq [], s := some strBodyBundle }

/-- C8 witness: the strategy equation instantiated at the string-shaped
schema context. -/
theorem body_strategy_selection_witness :
    RequestContext.body ctxStrBody =
      (bodyFinish strBodySchema (readBody (bodyStrategySpec strBodySchema
        strBodyBundle.transform (headersGet ctxStrBody.r.headers "content-type"))
        ctxStrBody.r), true) :=
  body_strategy_selection ctxStrBody strBodyBundle strBodySchema rfl rfl

/-- C9: each raw reader takes an optional deadline defaulting to 2500 ms,
reads from the cloned view exactly when the body stream is already
consumed, and returns the deadline-bounded outcome as an option — `none`
(null) on deadline expiry or rejection, never an exception. -/
theorem raw_readers_null_on_failure :
    ∀ ctx (ms : Nat),
      RequestContext.blob ctx ms =
        (deadlineRun (if ctx.r.bodyUsed then ctx.r.cloneBlobP else ctx.r.blobP)
          ms).toOption ∧
      RequestContext.buffer ctx ms =
        (deadlineRun (if ctx.r.bodyUsed then ctx.r.cloneArrayBufferP
          else ctx.r.arrayBufferP) ms).toOption ∧
      RequestContext.formData ctx ms =
        (deadlineRun (if ctx.r.bodyUsed then ctx.r.cloneFormDataP
          else ctx.r.formDataP) ms).toOption ∧
      rawReaderDefaultDeadline = 2500 := by
  intro ctx ms
  refine ⟨?_, ?_, ?_, rfl⟩
  · unfold RequestContext.blob
    rcases h : deadlineRun (if ctx.r.bodyUsed then ctx.r.cloneBlobP
      else ctx.r.blobP) ms with e | v <;> simp [h, Except.toOption]
  · unfold RequestContext.buffer
    rcases h : deadlineRun (if ctx.r.bodyUsed then ctx.r.cloneArrayBufferP
      else ctx.r.arrayBufferP) ms with e | v <;> simp [h, Except.toOption]
  · unfold RequestContext.formData
    rcases h : deadlineRun (if ctx.r.bodyUsed then ctx.r.cloneFormDataP
      else ctx.r.formDataP) ms with e | v <;> simp [h, Except.toOption]

end Cheetah
